import Mathlib

/-!
Verification of the document extraction pipeline of an LP document parser.

The definitions below are a shallow embedding of the Python source files
`app/services/document_processor.py`, `app/services/lp_extractor.py`,
`app/api/documents.py` and `app/tasks/tasks.py`.

Modelling conventions:
* Python strings are modelled as `List Char` internally (wrapped in `String`
  at the function boundaries); `str.lower` is modelled as a character-wise
  ASCII `Char.toLower` (every vocabulary keyword and every tested text is
  ASCII).
* Python regular expression searches are compiled by hand into dedicated
  scanning functions that reproduce the leftmost-match,
  greedy-with-backtracking semantics of the concrete patterns appearing in
  the source, including the `re.findall` behaviour of returning the capture
  group (not the whole match) when the pattern contains one group.
* `float(...)` is modelled as exact decimal parsing into `Rat`; every value
  the claims compare is exactly representable.
* Exceptions are modelled with `Except PyExc`; an `except ValueError` clause
  catches `PyExc.valueError` and an outer `except Exception` clause catches
  every `PyExc`.
-/


/-- ASCII lower-casing of a character list, modelling `str.lower`. -/
def lowerL (l : List Char) : List Char := l.map Char.toLower

/-- Boolean test that the first list is an initial segment of the second. -/
def leadsWith : List Char → List Char → Bool
  | [], _ => true
  | _ :: _, [] => false
  | a :: as, b :: bs => a = b && leadsWith as bs

/-- Python substring containment `needle in hay` on character lists. -/
def pyIn (needle : List Char) : List Char → Bool
  | [] => leadsWith needle []
  | c :: rest => leadsWith needle (c :: rest) || pyIn needle rest

/-- Python `text.split(chr(10))`: split into lines, keeping empty segments. -/
def splitLines : List Char → List (List Char)
  | [] => [[]]
  | c :: rest =>
    match splitLines rest with
    | [] => [[c]]
    | l :: ls => if c = '\n' then [] :: l :: ls else (c :: l) :: ls

/-- Capital call indicator vocabulary from
`DocumentProcessor.classify_document_type`. -/
def capital_call_keywords : List String :=
  ["capital call", "call notice", "capital contribution",
   "commitment", "drawdown", "capital request",
   "contribution request", "funding request"]

/-- Distribution indicator vocabulary from
`DocumentProcessor.classify_document_type`. -/
def distribution_keywords : List String :=
  ["distribution", "dividend", "return of capital",
   "proceeds", "distribution notice", "cash distribution",
   "return to limited partners"]

/-- Number of vocabulary phrases present as substrings of the (already
lower-cased) text, modelling `sum(1 for keyword in keywords if keyword in
text_lower)`. -/
def keywordScore (kws : List String) (tl : List Char) : Nat :=
  (kws.filter (fun k => pyIn k.toList tl)).length

/-- Capital-call score of a text in `classify_document_type`. -/
def capital_call_score (text : String) : Nat :=
  keywordScore capital_call_keywords (lowerL text.toList)

/-- Distribution score of a text in `classify_document_type`. -/
def distribution_score (text : String) : Nat :=
  keywordScore distribution_keywords (lowerL text.toList)

/-- Embedding of `DocumentProcessor.classify_document_type`.  The Python
method also receives a `structured_data` argument that its body never reads,
and wraps the body in a catch-all returning "other"; the body contains no
raising operation, so the embedding is the plain decision rule. -/
def classify_document_type (text : String) : String :=
  if capital_call_score text > distribution_score text ∧ capital_call_score text > 0 then
    "capital_call"
  else if distribution_score text > capital_call_score text ∧ distribution_score text > 0 then
    "distribution"
  else
    "other"

/-! ### Python exception model -/

/-- Python exception kinds relevant to the extractors: `ValueError` (raised
by `float` and `datetime.strptime` and caught by the inner handlers) and any
other exception (caught only by the outer catch-all handlers). -/
inductive PyExc
  | valueError
  | otherExc
deriving DecidableEq, Repr

/-! ### The date-shaped regular expression of `LPDocumentExtractor`

`self.date_pattern` in the source is
`\b\d{1,2}[slash dash]\d{1,2}[slash dash]\d{2,4}\b|\b\d{4}-\d{1,2}-\d{1,2}\b`.
The scanners below reproduce the leftmost-match semantics of `re.findall`
(only the first match is ever used by the source, via `dates[0]`). -/

/-- Word character for the regex `\b` boundary (ASCII fragment of `\w`). -/
def isWordChar (c : Char) : Bool := c.isAlpha || c.isDigit || c = '_'

/-- Truth of `\b` between an optional previous character and an optional
next character: the two sides must differ in word-ness. -/
def boundaryOk (prev next : Option Char) : Bool :=
  (match prev with | some c => isWordChar c | none => false) !=
  (match next with | some c => isWordChar c | none => false)

/-- Truth of a trailing `\b` when the preceding matched character is a digit:
the remainder must start with a non-word character or be empty. -/
def endBoundary (rest : List Char) : Bool :=
  match rest.head? with
  | none => true
  | some c => !isWordChar c

/-- Consume exactly `n` ASCII digits, returning them and the remainder. -/
def takeExactDigits : Nat → List Char → Option (List Char × List Char)
  | 0, l => some ([], l)
  | n + 1, c :: r =>
    if c.isDigit then (takeExactDigits n r).map (fun p => (c :: p.1, p.2)) else none
  | _ + 1, [] => none

/-- Backtracking candidates for a counted digit repetition such as `\d{1,2}`:
the lengths are tried greedily, longest first. -/
def countedDigits (counts : List Nat) (l : List Char) : List (List Char × List Char) :=
  counts.filterMap (fun n => takeExactDigits n l)

/-- Consume one `[slash dash]` separator. -/
def sepCand : List Char → Option (Char × List Char)
  | c :: r => if c = '/' || c = '-' then some (c, r) else none
  | [] => none

/-- Try the first date alternative `\b\d{1,2}[slash dash]\d{1,2}[slash dash]\d{2,4}\b` at the
current position, given the character immediately before it. -/
def tryDateAlt1 (prev : Option Char) (l : List Char) : Option (List Char) :=
  if boundaryOk prev l.head? then
    (countedDigits [2, 1] l).findSome? (fun p1 =>
      (sepCand p1.2).bind (fun s1 =>
        (countedDigits [2, 1] s1.2).findSome? (fun p2 =>
          (sepCand p2.2).bind (fun s2 =>
            (countedDigits [4, 3, 2] s2.2).findSome? (fun p3 =>
              if endBoundary p3.2 then
                some (p1.1 ++ s1.1 :: p2.1 ++ s2.1 :: p3.1)
              else none)))))
  else none

/-- Try the second date alternative `\b\d{4}-\d{1,2}-\d{1,2}\b` at the
current position. -/
def tryDateAlt2 (prev : Option Char) (l : List Char) : Option (List Char) :=
  if boundaryOk prev l.head? then
    (takeExactDigits 4 l).bind (fun p1 =>
      match p1.2 with
      | '-' :: r1 =>
        (countedDigits [2, 1] r1).findSome? (fun p2 =>
          match p2.2 with
          | '-' :: r2 =>
            (countedDigits [2, 1] r2).findSome? (fun p3 =>
              if endBoundary p3.2 then
                some (p1.1 ++ '-' :: p2.1 ++ '-' :: p3.1)
              else none)
          | _ => none)
      | _ => none)
  else none

/-- First match of the date pattern in a line (the source only ever consumes
`re.findall(self.date_pattern, line)[0]`), scanning left to right and
preferring the first alternative at each position. -/
def findFirstDateAux (prev : Option Char) : List Char → Option (List Char)
  | [] => none
  | c :: rest =>
    match tryDateAlt1 prev (c :: rest) with
    | some m => some m
    | none =>
      match tryDateAlt2 prev (c :: rest) with
      | some m => some m
      | none => findFirstDateAux (some c) rest

/-- First match of `self.date_pattern` in a line. -/
def findFirstDate (l : List Char) : Option (List Char) := findFirstDateAux none l

/-! ### `datetime.strptime` for the four formats used by `_extract_date`

CPython compiles `%m` to `(1[0-2]|0[1-9]|[1-9])`, `%d` to
`(3[01]|[12]\d|0[1-9]|[1-9])`, `%Y` to four digits and `%y` to two digits,
requires the regex to consume the whole string, and finally validates the
triple through the `datetime` constructor (which checks the day against the
month length).  The candidate lists below reproduce the backtracking order
of those alternations. -/

/-- Calendar date produced by the embedded `datetime.strptime`. -/
structure PyDate where
  year : Nat
  month : Nat
  day : Nat
deriving DecidableEq, Repr

/-- Numeric value of an ASCII digit string. -/
def digitsToNat (l : List Char) : Nat :=
  l.foldl (fun a c => 10 * a + (c.toNat - 48)) 0

/-- Candidates for `%m` = `(1[0-2]|0[1-9]|[1-9])`, in alternation order. -/
def monthCands (l : List Char) : List (Nat × List Char) :=
  (match l with
   | a :: b :: r =>
     if a = '1' && (b = '0' || b = '1' || b = '2') then [(10 + (b.toNat - 48), r)]
     else if a = '0' && b.isDigit && b ≠ '0' then [(b.toNat - 48, r)]
     else []
   | _ => []) ++
  (match l with
   | a :: r => if a.isDigit && a ≠ '0' then [(a.toNat - 48, r)] else []
   | [] => [])

/-- Candidates for `%d` = `(3[01]|[12]\d|0[1-9]|[1-9])`, in alternation
order. -/
def dayCands (l : List Char) : List (Nat × List Char) :=
  (match l with
   | a :: b :: r =>
     if a = '3' && (b = '0' || b = '1') then [(30 + (b.toNat - 48), r)]
     else if (a = '1' || a = '2') && b.isDigit then
       [(10 * (a.toNat - 48) + (b.toNat - 48), r)]
     else if a = '0' && b.isDigit && b ≠ '0' then [(b.toNat - 48, r)]
     else []
   | _ => []) ++
  (match l with
   | a :: r => if a.isDigit && a ≠ '0' then [(a.toNat - 48, r)] else []
   | [] => [])

/-- Exactly four digits for `%Y`. -/
def fourDigits (l : List Char) : Option (Nat × List Char) :=
  (takeExactDigits 4 l).map (fun p => (digitsToNat p.1, p.2))

/-- Exactly two digits for `%y`. -/
def twoDigits (l : List Char) : Option (Nat × List Char) :=
  (takeExactDigits 2 l).map (fun p => (digitsToNat p.1, p.2))

/-- Regex phase of `strptime` for `%m<sep>%d<sep>%Y`, requiring the whole
string to be consumed; yields `(month, day, year)`. -/
def strpMDY (sep : Char) (s : List Char) : Option (Nat × Nat × Nat) :=
  (monthCands s).findSome? (fun mc =>
    match mc.2 with
    | c :: r1 =>
      if c = sep then
        (dayCands r1).findSome? (fun dc =>
          match dc.2 with
          | c2 :: r2 =>
            if c2 = sep then
              match fourDigits r2 with
              | some yr => if yr.2.isEmpty then some (mc.1, dc.1, yr.1) else none
              | none => none
            else none
          | [] => none)
      else none
    | [] => none)

/-- Regex phase of `strptime` for `%Y-%m-%d`; yields `(month, day, year)`. -/
def strpYMD (s : List Char) : Option (Nat × Nat × Nat) :=
  match fourDigits s with
  | some yr =>
    (match yr.2 with
     | '-' :: r1 =>
       (monthCands r1).findSome? (fun mc =>
         match mc.2 with
         | '-' :: r2 =>
           (dayCands r2).findSome? (fun dc =>
             if dc.2.isEmpty then some (mc.1, dc.1, yr.1) else none)
         | _ => none)
     | _ => none)
  | none => none

/-- Regex phase of `strptime` for `%m/%d/%y`, with the CPython two-digit year
pivot (years 00-68 map to 20xx, 69-99 to 19xx); yields `(month, day, year)`. -/
def strpMDy2 (s : List Char) : Option (Nat × Nat × Nat) :=
  (monthCands s).findSome? (fun mc =>
    match mc.2 with
    | '/' :: r1 =>
      (dayCands r1).findSome? (fun dc =>
        match dc.2 with
        | '/' :: r2 =>
          match twoDigits r2 with
          | some yr =>
            if yr.2.isEmpty then
              some (mc.1, dc.1, if yr.1 ≤ 68 then 2000 + yr.1 else 1900 + yr.1)
            else none
          | none => none
        | _ => none)
    | _ => none)

/-- Gregorian leap year rule used by `datetime`. -/
def isLeapYear (y : Nat) : Bool := y % 4 = 0 && (y % 100 ≠ 0 || y % 400 = 0)

/-- Number of days in a month of a year. -/
def daysInMonth (y m : Nat) : Nat :=
  if m = 2 then (if isLeapYear y then 29 else 28)
  else if m = 4 || m = 6 || m = 9 || m = 11 then 30
  else 31

/-- The `datetime(year, month, day)` constructor check (the month is already
1..12 by construction of the regex candidates). -/
def mkDate (y m d : Nat) : Option PyDate :=
  if 1 ≤ y && y ≤ 9999 && 1 ≤ d && d ≤ daysInMonth y m then some ⟨y, m, d⟩ else none

/-- The four formats tried by `_extract_date`, in source order. -/
inductive DateFmt
  | mdY_slash
  | mdY_dash
  | Ymd
  | mdy_slash
deriving DecidableEq, Repr

/-- Format list `[m/d/Y, m-d-Y, Y-m-d, m/d/y]` from `_extract_date`. -/
def dateFormats : List DateFmt :=
  [DateFmt.mdY_slash, DateFmt.mdY_dash, DateFmt.Ymd, DateFmt.mdy_slash]

/-- Total model of `datetime.strptime(s, fmt)` for the four formats:
`none` when the Python call raises `ValueError`. -/
def strptimeOpt : DateFmt → List Char → Option PyDate
  | .mdY_slash, s =>
    match strpMDY '/' s with
    | some (m, d, y) => mkDate y m d
    | none => none
  | .mdY_dash, s =>
    match strpMDY '-' s with
    | some (m, d, y) => mkDate y m d
    | none => none
  | .Ymd, s =>
    match strpYMD s with
    | some (m, d, y) => mkDate y m d
    | none => none
  | .mdy_slash, s =>
    match strpMDy2 s with
    | some (m, d, y) => mkDate y m d
    | none => none

/-- Raising model of `datetime.strptime`: a failed parse raises
`ValueError`. -/
def strptimeExc (f : DateFmt) (s : List Char) : Except PyExc PyDate :=
  match strptimeOpt f s with
  | some d => Except.ok d
  | none => Except.error PyExc.valueError

/-! ### The currency, bare-amount and percentage patterns

`self.currency_pattern` is `\$[\d,]+\.?\d*|\d+\.?\d*\s*(USD|EUR|GBP|CAD|AUD)`.
It contains one capture group, so `re.findall` returns the group text of
each match: the empty string for a match of the first alternative, the
currency code for a match of the second.  `self.amount_pattern` is
`[\d,]+\.?\d*` and `self.percentage_pattern` is `\d+\.?\d*\s*%`; neither has
a group, so `re.findall` returns whole matches for them. -/

/-- Python whitespace class `\s` (ASCII fragment). -/
def isPySpace (c : Char) : Bool :=
  c = ' ' || c = '\t' || c = '\n' || c = '\r' || c = '\x0b' || c = '\x0c'

/-- Digit-or-comma class from the amount patterns. -/
def isDigitComma (c : Char) : Bool := c.isDigit || c = ','

/-- The five currency codes of the second alternative, in alternation
order. -/
def currencyCodes : List (List Char) :=
  ["USD".toList, "EUR".toList, "GBP".toList, "CAD".toList, "AUD".toList]

/-- Try the first currency alternative at the current position; returns the
capture-group text, which is empty because the group sits in the other
alternative. -/
def tryCurrAlt1 : List Char → Option (List Char)
  | '$' :: r =>
    let p := r.span isDigitComma
    if p.1.isEmpty then none else some []
  | _ => none

/-- Try the second currency alternative at the current position; returns the
captured currency code. -/
def tryCurrAlt2 (l : List Char) : Option (List Char) :=
  let p := l.span Char.isDigit
  if p.1.isEmpty then none
  else
    let r2 := match p.2 with
      | '.' :: t => t
      | other => other
    let p3 := r2.span Char.isDigit
    let p4 := p3.2.span isPySpace
    currencyCodes.findSome? (fun code =>
      if leadsWith code p4.2 then some code else none)

/-- Capture group of the first currency-pattern match in a line (the source
only consumes `re.findall(self.currency_pattern, line)[0]`). -/
def findFirstCurrencyGroup : List Char → Option (List Char)
  | [] => none
  | c :: rest =>
    match tryCurrAlt1 (c :: rest) with
    | some g => some g
    | none =>
      match tryCurrAlt2 (c :: rest) with
      | some g => some g
      | none => findFirstCurrencyGroup rest

/-- First match of the bare amount pattern `[\d,]+\.?\d*` in a line. -/
def findFirstAmount : List Char → Option (List Char)
  | [] => none
  | c :: rest =>
    let p := (c :: rest).span isDigitComma
    if p.1.isEmpty then findFirstAmount rest
    else
      match p.2 with
      | '.' :: t => some (p.1 ++ '.' :: (t.span Char.isDigit).1)
      | _ => some p.1

/-- First match of the percentage pattern `\d+\.?\d*\s*%` in a line. -/
def findFirstPct : List Char → Option (List Char)
  | [] => none
  | c :: rest =>
    match
      (let p := (c :: rest).span Char.isDigit
       if p.1.isEmpty then none
       else
         let r2 := match p.2 with
           | '.' :: t => ('.' :: (t.span Char.isDigit).1, (t.span Char.isDigit).2)
           | other => ([], other)
         let p4 := r2.2.span isPySpace
         match p4.2 with
         | '%' :: _ => some (p.1 ++ r2.1 ++ p4.1 ++ ['%'])
         | _ => none)
    with
    | some m => some m
    | none => findFirstPct rest

/-! ### Python `float` and string cleaning helpers -/

/-- Python `str.strip()` (ASCII whitespace fragment). -/
def pyStrip (l : List Char) : List Char :=
  ((l.dropWhile isPySpace).reverse.dropWhile isPySpace).reverse

/-- Model of `float(s)` restricted to the decimal shapes reachable in the
source (optionally space-padded digit strings with at most one decimal
point); parses exactly into `Rat`, `none` models a raised `ValueError`. -/
def pyFloat (s : List Char) : Option Rat :=
  let t := pyStrip s
  let p := t.span Char.isDigit
  match p.2 with
  | [] => if p.1.isEmpty then none else some (digitsToNat p.1 : Rat)
  | '.' :: fr =>
    let q := fr.span Char.isDigit
    if !q.2.isEmpty then none
    else if p.1.isEmpty && q.1.isEmpty then none
    else some ((digitsToNat p.1 : Rat) + (digitsToNat q.1 : Rat) / (10 : Rat) ^ q.1.length)
  | _ => none

/-- Raising model of `float(s)`. -/
def pyFloatExc (s : List Char) : Except PyExc Rat :=
  match pyFloat s with
  | some v => Except.ok v
  | none => Except.error PyExc.valueError

/-- Model of `re.sub(r'[^\d.,]', chr(39) * 0, s)`: keep only digits, dots
and commas. -/
def keepNumChars (l : List Char) : List Char :=
  l.filter (fun c => c.isDigit || c = '.' || c = ',')

/-- Model of `s.replace(',', chr(39) * 0)`: drop all commas. -/
def dropCommas (l : List Char) : List Char := l.filter (fun c => c ≠ ',')

/-- Model of `s.replace(chr(37), chr(39) * 0)`: drop all percent signs. -/
def dropPctSigns (l : List Char) : List Char := l.filter (fun c => c ≠ '%')

/-! ### `LPDocumentExtractor._extract_date`

The loops below mirror the source exactly: the outer loop runs over the
keywords in declaration order, guarded by `keyword in text_lower`; the inner
loop runs over all lines whose lower-casing contains the keyword; in each
such line the first regex match is tried against the four formats in order,
a `ValueError` continues with the next format, and exhausting the formats
falls through to the next line.  The parser primitive is a parameter so that
the handler structure can be verified for every possible primitive
behaviour. -/

/-- The `for fmt in [...]` loop of `_extract_date`: `return` on success,
`except ValueError: continue` on a parse failure, any other exception
propagates. -/
def dateFmtLoop (p : DateFmt → List Char → Except PyExc PyDate) (ds : List Char) :
    List DateFmt → Except PyExc (Option PyDate)
  | [] => Except.ok none
  | f :: fs =>
    match p f ds with
    | Except.ok d => Except.ok (some d)
    | Except.error PyExc.valueError => dateFmtLoop p ds fs
    | Except.error e => Except.error e

/-- The `for line in lines` loop of `_extract_date` for one keyword. -/
def dateLineLoop (p : DateFmt → List Char → Except PyExc PyDate) (kw : List Char) :
    List (List Char) → Except PyExc (Option PyDate)
  | [] => Except.ok none
  | line :: rest =>
    if pyIn kw (lowerL line) then
      match findFirstDate line with
      | some ds =>
        (match dateFmtLoop p ds dateFormats with
         | Except.ok (some d) => Except.ok (some d)
         | Except.ok none => dateLineLoop p kw rest
         | Except.error e => Except.error e)
      | none => dateLineLoop p kw rest
    else dateLineLoop p kw rest

/-- The `for keyword in keywords` loop of `_extract_date`. -/
def dateKeywordLoop (p : DateFmt → List Char → Except PyExc PyDate)
    (tl : List Char) (lines : List (List Char)) :
    List (List Char) → Except PyExc (Option PyDate)
  | [] => Except.ok none
  | kw :: kws =>
    if pyIn kw tl then
      match dateLineLoop p kw lines with
      | Except.ok (some d) => Except.ok (some d)
      | Except.ok none => dateKeywordLoop p tl lines kws
      | Except.error e => Except.error e
    else dateKeywordLoop p tl lines kws

/-- `_extract_date` with the strptime primitive as a parameter; the outer
`try ... except Exception: return None` of the source is the final match. -/
def extract_dateP (p : DateFmt → List Char → Except PyExc PyDate)
    (text : String) (keywords : List String) : Option PyDate :=
  match dateKeywordLoop p (lowerL text.toList) (splitLines text.toList)
      (keywords.map String.toList) with
  | Except.ok r => r
  | Except.error _ => none

/-- Embedding of `LPDocumentExtractor._extract_date`. -/
def extract_date (text : String) (keywords : List String) : Option PyDate :=
  extract_dateP strptimeExc text keywords

/-! ### `LPDocumentExtractor._extract_amount`

In the currency branch the source feeds the capture group (never the whole
match) through `re.sub` and `replace` into `float`; on `ValueError` the
`continue` moves to the next line, skipping the bare-amount fallback for the
current line. -/

/-- The `for line in lines` loop of `_extract_amount` for one keyword. -/
def amountLineLoop (f : List Char → Except PyExc Rat) (kw : List Char) :
    List (List Char) → Except PyExc (Option Rat)
  | [] => Except.ok none
  | line :: rest =>
    if pyIn kw (lowerL line) then
      match findFirstCurrencyGroup line with
      | some g =>
        (match f (dropCommas (keepNumChars g)) with
         | Except.ok v => Except.ok (some v)
         | Except.error PyExc.valueError => amountLineLoop f kw rest
         | Except.error e => Except.error e)
      | none =>
        match findFirstAmount line with
        | some m =>
          (match f (dropCommas m) with
           | Except.ok v => Except.ok (some v)
           | Except.error PyExc.valueError => amountLineLoop f kw rest
           | Except.error e => Except.error e)
        | none => amountLineLoop f kw rest
    else amountLineLoop f kw rest

/-- The `for keyword in keywords` loop of `_extract_amount`. -/
def amountKeywordLoop (f : List Char → Except PyExc Rat)
    (tl : List Char) (lines : List (List Char)) :
    List (List Char) → Except PyExc (Option Rat)
  | [] => Except.ok none
  | kw :: kws =>
    if pyIn kw tl then
      match amountLineLoop f kw lines with
      | Except.ok (some v) => Except.ok (some v)
      | Except.ok none => amountKeywordLoop f tl lines kws
      | Except.error e => Except.error e
    else amountKeywordLoop f tl lines kws

/-- `_extract_amount` with the float primitive as a parameter. -/
def extract_amountP (f : List Char → Except PyExc Rat)
    (text : String) (keywords : List String) : Option Rat :=
  match amountKeywordLoop f (lowerL text.toList) (splitLines text.toList)
      (keywords.map String.toList) with
  | Except.ok r => r
  | Except.error _ => none

/-- Embedding of `LPDocumentExtractor._extract_amount`. -/
def extract_amount (text : String) (keywords : List String) : Option Rat :=
  extract_amountP pyFloatExc text keywords

/-! ### `LPDocumentExtractor._extract_percentage` -/

/-- The `for line in lines` loop of `_extract_percentage` for one keyword. -/
def pctLineLoop (f : List Char → Except PyExc Rat) (kw : List Char) :
    List (List Char) → Except PyExc (Option Rat)
  | [] => Except.ok none
  | line :: rest =>
    if pyIn kw (lowerL line) then
      match findFirstPct line with
      | some m =>
        (match f (dropPctSigns m) with
         | Except.ok v => Except.ok (some v)
         | Except.error PyExc.valueError => pctLineLoop f kw rest
         | Except.error e => Except.error e)
      | none => pctLineLoop f kw rest
    else pctLineLoop f kw rest

/-- The `for keyword in keywords` loop of `_extract_percentage`. -/
def pctKeywordLoop (f : List Char → Except PyExc Rat)
    (tl : List Char) (lines : List (List Char)) :
    List (List Char) → Except PyExc (Option Rat)
  | [] => Except.ok none
  | kw :: kws =>
    if pyIn kw tl then
      match pctLineLoop f kw lines with
      | Except.ok (some v) => Except.ok (some v)
      | Except.ok none => pctKeywordLoop f tl lines kws
      | Except.error e => Except.error e
    else pctKeywordLoop f tl lines kws

/-- `_extract_percentage` with the float primitive as a parameter. -/
def extract_percentageP (f : List Char → Except PyExc Rat)
    (text : String) (keywords : List String) : Option Rat :=
  match pctKeywordLoop f (lowerL text.toList) (splitLines text.toList)
      (keywords.map String.toList) with
  | Except.ok r => r
  | Except.error _ => none

/-- Embedding of `LPDocumentExtractor._extract_percentage`. -/
def extract_percentage (text : String) (keywords : List String) : Option Rat :=
  extract_percentageP pyFloatExc text keywords

/-! ### `_extract_fund_name` and `_extract_lp_name`

The fund-name patterns are `fund[:\s]+([A-Z][^.\n]*)` (case-sensitive) and
`([A-Z][A-Z\s]+fund)`, `([A-Z][A-Z\s]+partners)`, `([A-Z][A-Z\s]+capital)`;
the LP-name patterns are `dear\s+([^,\n]+)`, `to:\s*([^,\n]+)`,
`limited partner[:\s]+([^,\n]+)` and `lp[:\s]+([^,\n]+)`, all with
`re.IGNORECASE`.  Only `matches[0]` is consumed, so the scanners return the
first match.  The greedy one-or-more padding classes backtrack from the
maximal run length downwards. -/

/-- ASCII upper-case class `[A-Z]`. -/
def isUpperAZ (c : Char) : Bool := 'A' ≤ c && c ≤ 'Z'

/-- Class `[A-Z\s]` of the caps-run fund patterns. -/
def capsOrWs (c : Char) : Bool := isUpperAZ c || isPySpace c

/-- Negated class `[^.\n]`. -/
def notDotNl (c : Char) : Bool := c ≠ '.' && c ≠ '\n'

/-- Negated class `[^,\n]`. -/
def notCommaNl (c : Char) : Bool := c ≠ ',' && c ≠ '\n'

/-- Left-to-right scan returning the first position where a pattern matcher
succeeds, modelling `re.findall(...)[0]` for the group-returning matchers. -/
def scanFirst (tryAt : List Char → Option (List Char)) : List Char → Option (List Char)
  | [] => none
  | c :: rest =>
    match tryAt (c :: rest) with
    | some g => some g
    | none => scanFirst tryAt rest

/-- Try `fund[:\s]+([A-Z][^.\n]*)` at the current position; the padding
class backtracks greedily until an upper-case letter starts the group. -/
def tryFundP1At (l : List Char) : Option (List Char) :=
  if leadsWith "fund".toList l then
    let r1 := l.drop 4
    let m := (r1.span (fun c => c = ':' || isPySpace c)).1.length
    (List.range m).findSome? (fun i =>
      let k := m - i
      match r1.drop k with
      | c :: t => if isUpperAZ c then some (c :: (t.span notDotNl).1) else none
      | [] => none)
  else none

/-- Try `([A-Z][A-Z\s]+lit)` at the current position, backtracking the
greedy caps-run until the literal suffix matches. -/
def tryCapsLitAt (lit : List Char) (l : List Char) : Option (List Char) :=
  match l with
  | c :: t =>
    if isUpperAZ c then
      let m := (t.span capsOrWs).1.length
      (List.range m).findSome? (fun i =>
        let k := m - i
        if leadsWith lit (t.drop k) then some (c :: (t.take k ++ lit)) else none)
    else none
  | [] => none

/-- Embedding of `LPDocumentExtractor._extract_fund_name`: the four patterns
are tried in order over the whole text and the first group is stripped. -/
def extract_fund_name (text : String) : Option String :=
  match scanFirst tryFundP1At text.toList with
  | some g => some (String.mk (pyStrip g))
  | none =>
    match scanFirst (tryCapsLitAt "fund".toList) text.toList with
    | some g => some (String.mk (pyStrip g))
    | none =>
      match scanFirst (tryCapsLitAt "partners".toList) text.toList with
      | some g => some (String.mk (pyStrip g))
      | none =>
        match scanFirst (tryCapsLitAt "capital".toList) text.toList with
        | some g => some (String.mk (pyStrip g))
        | none => none

/-- Try `lit` (case-insensitively), then a greedy padding run of at least
`minPad` characters of class `pad`, then the group `([^,\n]+)`. -/
def tryKVAt (lit : List Char) (pad : Char → Bool) (minPad : Nat) (l : List Char) :
    Option (List Char) :=
  if leadsWith lit (lowerL l) then
    let r1 := l.drop lit.length
    let m := (r1.span pad).1.length
    (List.range (m + 1 - minPad)).findSome? (fun i =>
      let k := m - i
      let g := ((r1.drop k).span notCommaNl).1
      if g.isEmpty then none else some g)
  else none

/-- Embedding of `LPDocumentExtractor._extract_lp_name`. -/
def extract_lp_name (text : String) : Option String :=
  match scanFirst (tryKVAt "dear".toList isPySpace 1) text.toList with
  | some g => some (String.mk (pyStrip g))
  | none =>
    match scanFirst (tryKVAt "to:".toList isPySpace 0) text.toList with
    | some g => some (String.mk (pyStrip g))
    | none =>
      match scanFirst
          (tryKVAt "limited partner".toList (fun c => c = ':' || isPySpace c) 1)
          text.toList with
      | some g => some (String.mk (pyStrip g))
      | none =>
        match scanFirst
            (tryKVAt "lp".toList (fun c => c = ':' || isPySpace c) 1) text.toList with
        | some g => some (String.mk (pyStrip g))
        | none => none

/-! ### `_extract_payment_instructions` -/

/-- Section headers recognised by `_extract_payment_instructions`. -/
def paySections : List String :=
  ["payment instructions", "wire instructions", "payment details", "banking information"]

/-- The closing-salutation test
`line.lower().startswith(("sincerely", "regards", "best"))`. -/
def startsWithCloser (l : List Char) : Bool :=
  leadsWith "sincerely".toList l || leadsWith "regards".toList l ||
    leadsWith "best".toList l

/-- Lines following the section header up to the iteration bound: stripped,
blank lines skipped, a closing salutation stops collection. -/
def collectInstr : List (List Char) → Nat → List (List Char)
  | _, 0 => []
  | [], _ => []
  | line :: rest, n + 1 =>
    let s := pyStrip line
    if startsWithCloser (lowerL s) then []
    else if s.isEmpty then collectInstr rest n
    else s :: collectInstr rest n

/-- The lines strictly after the first line containing the section header. -/
def findSectionTail (sec : List Char) : List (List Char) → Option (List (List Char))
  | [] => none
  | line :: rest =>
    if pyIn sec (lowerL line) then some rest else findSectionTail sec rest

/-- Python `chr(10).join(ls)`. -/
def joinWithNl : List (List Char) → List Char
  | [] => []
  | [l] => l
  | l :: ls => l ++ '\n' :: joinWithNl ls

/-- Embedding of `LPDocumentExtractor._extract_payment_instructions`:
sections are tried in order; a section present in the text whose following
nine lines collect nothing falls through to the next section. -/
def extract_payment_instructions (text : String) : Option String :=
  paySections.findSome? (fun sec =>
    if pyIn sec.toList (lowerL text.toList) then
      match findSectionTail sec.toList (splitLines text.toList) with
      | some tail =>
        let ins := collectInstr tail 9
        if ins.isEmpty then none else some (String.mk (joinWithNl ins))
      | none => none
    else none)

/-! ### `_extract_wire_transfer_info` -/

/-- The named wire sub-fields and their keyword lists, in source order. -/
def wireFields : List (String × List String) :=
  [("bank_name", ["bank name", "bank:"]),
   ("account_number", ["account number", "account no", "acct no"]),
   ("routing_number", ["routing number", "routing no", "aba"]),
   ("swift_code", ["swift", "bic"]),
   ("beneficiary", ["beneficiary", "pay to"])]

/-- Python `line.split(chr(58), 1)[1]`: everything after the first colon. -/
def splitColonAfter : List Char → List Char
  | [] => []
  | ':' :: t => t
  | _ :: t => splitColonAfter t

/-- First line containing the keyword whose colon-suffix strips to a
non-empty value (the `break` exits only the line loop). -/
def wireLineScan (kw : List Char) : List (List Char) → Option (List Char)
  | [] => none
  | line :: rest =>
    match
      (if pyIn kw (lowerL line) then
        if pyIn [':'] line then
          (let v := pyStrip (splitColonAfter line)
           if v.isEmpty then none else some v)
        else none
      else none)
    with
    | some v => some v
    | none => wireLineScan kw rest

/-- Value of one wire sub-field: each keyword in order overwrites the value
when it finds a line (the source keeps iterating keywords after a `break`
out of the line loop, so the last keyword with a hit wins). -/
def wireFieldValue (lines : List (List Char)) (kws : List (List Char)) :
    Option (List Char) :=
  kws.foldl (fun acc kw =>
    match wireLineScan kw lines with
    | some v => some v
    | none => acc) none

/-- Embedding of `LPDocumentExtractor._extract_wire_transfer_info`. -/
def extract_wire_transfer_info (text : String) : Option (List (String × String)) :=
  let entries := wireFields.filterMap (fun fk =>
    (wireFieldValue (splitLines text.toList) (fk.2.map String.toList)).map
      (fun v => (fk.1, String.mk v)))
  if entries.isEmpty then none else some entries

/-! ### `_extract_payment_method` -/

/-- The fixed method list of `_extract_payment_method`, in source order. -/
def payment_methods : List String :=
  ["wire transfer", "ach", "check", "electronic transfer", "direct deposit"]

/-- The `for method in methods` loop of `_extract_payment_method`. -/
def methodLoop (tl : List Char) : List String → Option String
  | [] => none
  | m :: ms => if pyIn m.toList tl then some m else methodLoop tl ms

/-- Embedding of `LPDocumentExtractor._extract_payment_method`. -/
def extract_payment_method (text : String) : Option String :=
  methodLoop (lowerL text.toList) payment_methods

/-! ### The aggregate field sets -/

/-- Values stored in an extracted field set. -/
inductive PyValue
  | date (d : PyDate)
  | num (q : Rat)
  | str (s : String)
  | table (m : List (String × String))
deriving DecidableEq, Repr

/-- Embedding of `LPDocumentExtractor.extract_capital_call_data`: the field
dictionary in insertion order.  The body calls one extractor per field, so
the outcome of one field cannot influence another; the outer catch-all
returning an empty dictionary is dead because every extractor is total. -/
def extract_capital_call_data (text : String) : List (String × Option PyValue) :=
  [("call_date", (extract_date text ["call date", "notice date", "date"]).map PyValue.date),
   ("due_date", (extract_date text ["due date", "payment due", "deadline"]).map PyValue.date),
   ("call_amount", (extract_amount text ["call amount", "contribution", "capital call"]).map PyValue.num),
   ("lp_commitment", (extract_amount text ["commitment", "total commitment"]).map PyValue.num),
   ("remaining_commitment", (extract_amount text ["remaining commitment", "outstanding"]).map PyValue.num),
   ("call_percentage", (extract_percentage text ["call percentage", "contribution percentage"]).map PyValue.num),
   ("fund_name", (extract_fund_name text).map PyValue.str),
   ("fund_size", (extract_amount text ["fund size", "total commitments"]).map PyValue.num),
   ("lp_name", (extract_lp_name text).map PyValue.str),
   ("payment_instructions", (extract_payment_instructions text).map PyValue.str),
   ("wire_transfer_info", (extract_wire_transfer_info text).map PyValue.table)]

/-- Embedding of `LPDocumentExtractor.extract_distribution_data`. -/
def extract_distribution_data (text : String) : List (String × Option PyValue) :=
  [("distribution_date", (extract_date text ["distribution date", "payment date"]).map PyValue.date),
   ("record_date", (extract_date text ["record date", "ex-date"]).map PyValue.date),
   ("distribution_amount", (extract_amount text ["distribution amount", "distribution"]).map PyValue.num),
   ("lp_distribution_amount", (extract_amount text ["your distribution", "distribution to"]).map PyValue.num),
   ("distribution_per_unit", (extract_amount text ["per unit", "per share"]).map PyValue.num),
   ("fund_name", (extract_fund_name text).map PyValue.str),
   ("fund_nav", (extract_amount text ["nav", "net asset value"]).map PyValue.num),
   ("total_distributions", (extract_amount text ["total distributions"]).map PyValue.num),
   ("lp_name", (extract_lp_name text).map PyValue.str),
   ("lp_units", (extract_amount text ["units", "shares", "partnership units"]).map PyValue.num),
   ("irr", (extract_percentage text ["irr", "internal rate of return"]).map PyValue.num),
   ("multiple", (extract_amount text ["multiple", "total return multiple"]).map PyValue.num),
   ("payment_method", (extract_payment_method text).map PyValue.str),
   ("payment_instructions", (extract_payment_instructions text).map PyValue.str)]

/-! ### The record reconciler

`app/api/documents.py` (`process_document`) and `app/tasks/tasks.py`
(`process_document_task`) merge an extracted field set into a detail record
with the identical loop
`for key, value in data.items(): if hasattr(detail, key) and value is not
None: setattr(detail, key, value)`.
A detail record is modelled as a function from attribute names to optional
values together with the list of column names declared by the model class
(`hasattr` is modelled as membership in that list). -/

/-- Functional update of a record at one attribute. -/
def setField {V : Type} (r : String → Option V) (k : String) (v : Option V) :
    String → Option V :=
  fun q => if k = q then v else r q

/-- One iteration of the merge loop: set the attribute when it is declared
and the extracted value is not null, otherwise leave the record unchanged. -/
def mergeStep {V : Type} (schema : List String) (r : String → Option V)
    (kv : String × Option V) : String → Option V :=
  if schema.contains kv.1 && kv.2.isSome then setField r kv.1 kv.2 else r

/-- The whole merge loop over the extracted items in dictionary order. -/
def mergeFields {V : Type} (schema : List String) (r : String → Option V)
    (items : List (String × Option V)) : String → Option V :=
  items.foldl (mergeStep schema) r

/-- The last effective write to attribute `k` performed by the merge loop on
`items` (later items take precedence). -/
def lastWrite {V : Type} (schema : List String) (k : String) :
    List (String × Option V) → Option V
  | [] => none
  | kv :: rest =>
    match lastWrite schema k rest with
    | some v => some v
    | none => if kv.1 = k && schema.contains kv.1 && kv.2.isSome then kv.2 else none

/-- First binding of a key in an association list (Python dictionaries have
unique keys, so with `Nodup` keys it is the only binding). -/
def lookupField {V : Type} (k : String) : List (String × V) → Option V
  | [] => none
  | kv :: rest => if kv.1 = k then some kv.2 else lookupField k rest

/-! ### Detail-record tables for the reconciler

The detail tables (`capital_call_details`, `distribution_details`) are
modelled as association lists from `document_id` to records; the source
queries `.filter(Detail.document_id == document_id).first()`, mutates the
found record in place, or adds a fresh record when none exists. -/

/-- Model of `query(...).filter(document_id == docId).first()`. -/
def findRow {V : Type} (docId : Nat) :
    List (Nat × (String → Option V)) → Option (String → Option V)
  | [] => none
  | row :: rest => if row.1 = docId then some row.2 else findRow docId rest

/-- In-place mutation of the first row with the given `document_id`. -/
def updateFirst {V : Type} (schema : List String) (docId : Nat)
    (items : List (String × Option V)) :
    List (Nat × (String → Option V)) → List (Nat × (String → Option V))
  | [] => []
  | row :: rest =>
    if row.1 = docId then (row.1, mergeFields schema row.2 items) :: rest
    else row :: updateFirst schema docId items rest

/-- A freshly constructed detail record: every column is null. -/
def emptyRecord {V : Type} : String → Option V := fun _ => none

/-- The create-or-update block shared by `process_document` and
`process_document_task`. -/
def upsertDetail {V : Type} (schema : List String)
    (table : List (Nat × (String → Option V))) (docId : Nat)
    (items : List (String × Option V)) : List (Nat × (String → Option V)) :=
  match findRow docId table with
  | some _ => updateFirst schema docId items table
  | none => table ++ [(docId, mergeFields schema emptyRecord items)]

/-- Number of rows of the table holding the given `document_id`. -/
def countRows {V : Type} (docId : Nat) (table : List (Nat × (String → Option V))) : Nat :=
  (table.filter (fun row => row.1 == docId)).length

/-- Column names declared by the `CapitalCallDetail` model class
(`app/models/document.py`). -/
def capitalCallSchema : List String :=
  ["id", "document_id", "call_date", "due_date", "call_amount", "currency",
   "call_percentage", "fund_name", "fund_size", "investment_period", "lp_name",
   "lp_commitment", "lp_contribution_to_date", "remaining_commitment",
   "payment_instructions", "wire_transfer_info", "notes", "extracted_data",
   "created_at", "updated_at"]

/-- The capital-call branch of the processing pipeline: run the field
extraction engine on the text and, when the extracted dictionary is truthy
(it always has eleven keys), create or update the detail record. -/
def reconcile_capital_call (table : List (Nat × (String → Option PyValue)))
    (docId : Nat) (text : String) : List (Nat × (String → Option PyValue)) :=
  if (extract_capital_call_data text).isEmpty then table
  else upsertDetail capitalCallSchema table docId (extract_capital_call_data text)

/-- Column names declared by the `DistributionDetail` model class
(`app/models/document.py`). -/
def distributionSchema : List String :=
  ["id", "document_id", "distribution_date", "record_date", "distribution_amount",
   "currency", "distribution_per_unit", "fund_name", "fund_nav",
   "total_distributions", "lp_name", "lp_units", "lp_distribution_amount",
   "investment_period", "irr", "multiple", "payment_method",
   "payment_instructions", "notes", "extracted_data", "created_at", "updated_at"]

/-- The distribution branch of the processing pipeline
(`documents.py:178-193` and the matching block of `process_document_task`):
run the field extraction engine on the text and, when the extracted
dictionary is truthy (it always has fourteen keys), create or update the
`DistributionDetail` record. -/
def reconcile_distribution (table : List (Nat × (String → Option PyValue)))
    (docId : Nat) (text : String) : List (Nat × (String → Option PyValue)) :=
  if (extract_distribution_data text).isEmpty then table
  else upsertDetail distributionSchema table docId (extract_distribution_data text)

/-- Concrete schema for the claim C3 witness. -/
def wSchema : List String := ["a", "b"]

/-- Concrete record for the claim C3 witness. -/
def wRecord : String → Option Rat := fun q => if q = "a" then some 1 else none

/-- Concrete extracted items for the claim C3 witness. -/
def wItems : List (String × Option Rat) := [("a", none), ("b", some 2), ("zz", some 3)]

/-! ### The lifecycle admission guard

`process_document` in `app/api/documents.py` rejects a processing request
with HTTP 409 when the document status is already `processing` or
`completed`, before any mutation; otherwise it persists
`processing_status = "processing"`.  The Celery entry point
`process_document_task` in `app/tasks/tasks.py` performs no such guard: it
sets the status to `processing` unconditionally for any existing document.
The document row is modelled by its status; on the conflict path the API
handler raises before touching any other field or writing any log entry. -/

/-- Lifecycle status values written by the source. -/
inductive DocStatus
  | pending
  | processing
  | completed
  | failed
deriving DecidableEq, Repr

/-- Outcome signalled to the caller of a processing request. -/
inductive ProcessOutcome
  | notFound
  | conflict
  | admitted
deriving DecidableEq, Repr

/-- Admission portion of the API endpoint `process_document`: the returned
pair is the outcome and the resulting stored status. -/
def api_process_admission : Option DocStatus → ProcessOutcome × Option DocStatus
  | none => (ProcessOutcome.notFound, none)
  | some st =>
    if st = DocStatus.processing then (ProcessOutcome.conflict, some st)
    else if st = DocStatus.completed then (ProcessOutcome.conflict, some st)
    else (ProcessOutcome.admitted, some DocStatus.processing)

/-- The two entry points that accept a processing request for a document. -/
inductive RequestPath
  | api
  | task
deriving DecidableEq, Repr

/-- Admission behaviour of a processing request along either entry point:
the API endpoint guards on the current status, while the background task
(`process_document_task`) transitions any existing document to `processing`
unconditionally. -/
def process_request_admission :
    RequestPath → Option DocStatus → ProcessOutcome × Option DocStatus
  | RequestPath.api, d => api_process_admission d
  | RequestPath.task, none => (ProcessOutcome.notFound, none)
  | RequestPath.task, some _ => (ProcessOutcome.admitted, some DocStatus.processing)

/-! ### The cleanup sweep (`cleanup_old_files` in `app/tasks/tasks.py`)

The sweep iterates over the upload directory, and for every regular file
whose modification time is strictly before `utcnow() - timedelta(days=7)`
attempts `unlink()`, counting successes; a failed deletion is logged and the
loop continues.  Times are modelled in seconds; a directory entry carries
its modification time, whether it is a regular file, and whether its
deletion would fail. -/

/-- One entry of the upload directory. -/
structure FsEntry where
  mtime : Int
  isFile : Bool
  unlinkFails : Bool
deriving DecidableEq, Repr

/-- The deletion loop of `cleanup_old_files`: returns the surviving entries
and the `deleted_count`. -/
def cleanup_old_files (now : Int) : List FsEntry → List FsEntry × Nat
  | [] => ([], 0)
  | e :: rest =>
    let r := cleanup_old_files now rest
    if e.isFile && decide (e.mtime < now - 7 * 86400) then
      if e.unlinkFails then (e :: r.1, r.2) else (r.1, r.2 + 1)
    else (e :: r.1, r.2)

/-- Upload directory for the claim C9 witness: an 8-day-old regular file
and a 1-day-old regular file, deletions succeeding. -/
def wEntriesA : List FsEntry :=
  [{ mtime := -8 * 86400, isFile := true, unlinkFails := false },
   { mtime := -86400, isFile := true, unlinkFails := false }]

/-- Upload directory for the claim C9 witness: a 10-day-old file whose
deletion fails followed by an 8-day-old file whose deletion succeeds. -/
def wEntriesB : List FsEntry :=
  [{ mtime := -10 * 86400, isFile := true, unlinkFails := true },
   { mtime := -8 * 86400, isFile := true, unlinkFails := false }]

/-! ### The text source adapter (`DocumentProcessor` in
`app/services/document_processor.py`)

`_process_with_docling` returns a result dictionary with `success=False` and
a captured error string when the backend is unavailable or the conversion
raises; `_extract_text_with_ocr` returns an empty string when the OCR
dependencies are missing, when a PDF cannot be rasterised, or when any step
inside its `try` block raises.  The backends are external collaborators and
are modelled as explicit parameters; a call that may raise is a `PyResult`. -/

/-- Outcome of a call into an external backend. -/
inductive PyResult (α : Type)
  | ok (a : α)
  | raises (msg : String)
deriving DecidableEq, Repr

/-- The result dictionary of `_process_with_docling`. -/
structure DoclingResult where
  structured_data : Option String
  text_content : Option String
  success : Bool
  error : Option String
deriving DecidableEq, Repr

/-- Embedding of `DocumentProcessor._process_with_docling`: `available` is
`DOCLING_AVAILABLE and self.converter`, `convert` the backend conversion
producing the structured export and the markdown text. -/
def process_with_docling (available : Bool) (convert : PyResult (String × String)) :
    DoclingResult :=
  if !available then
    { structured_data := none, text_content := none, success := false,
      error := some "Docling not installed" }
  else
    match convert with
    | PyResult.ok sd =>
      { structured_data := some sd.1, text_content := some sd.2, success := true,
        error := none }
    | PyResult.raises e =>
      { structured_data := none, text_content := none, success := false,
        error := some e }

/-- Environment of `_extract_text_with_ocr`: availability flags of the three
optional dependencies, whether the file is a PDF, and the backend calls that
may raise (`pdf2image.convert_from_path`, `Image.open`,
`pytesseract.image_to_string`).  Images are opaque handles. -/
structure OcrEnv where
  tesseract : Bool
  pillow : Bool
  pdf2image : Bool
  isPdf : Bool
  pages : PyResult (List Nat)
  openImage : PyResult Nat
  recognize : Nat → PyResult String

/-- Page marker prefixed to each recognised PDF page. -/
def pageMarker (n : Nat) (t : String) : String :=
  "--- Page " ++ toString n ++ " ---\n" ++ t

/-- The per-page recognition loop of the PDF branch; a raise on any page
propagates. -/
def ocrPagesLoop (recognize : Nat → PyResult String) :
    List Nat → Nat → PyResult (List String)
  | [], _ => PyResult.ok []
  | img :: rest, n =>
    match recognize img with
    | PyResult.raises e => PyResult.raises e
    | PyResult.ok t =>
      match ocrPagesLoop recognize rest (n + 1) with
      | PyResult.raises e => PyResult.raises e
      | PyResult.ok ts => PyResult.ok (pageMarker n t :: ts)

/-- Python `sep.join(parts)` for the page separator. -/
def joinPages : List String → String
  | [] => ""
  | [p] => p
  | p :: ps => p ++ "\n\n" ++ joinPages ps

/-- The `try` block body of `_extract_text_with_ocr` (the missing-pdf2image
early return yields an empty string inside the block). -/
def ocrTryBody (env : OcrEnv) : PyResult String :=
  if env.isPdf then
    if !env.pdf2image then PyResult.ok ""
    else
      match env.pages with
      | PyResult.raises e => PyResult.raises e
      | PyResult.ok imgs =>
        match ocrPagesLoop env.recognize imgs 1 with
        | PyResult.raises e => PyResult.raises e
        | PyResult.ok parts => PyResult.ok (joinPages parts)
  else
    match env.openImage with
    | PyResult.raises e => PyResult.raises e
    | PyResult.ok img =>
      match env.recognize img with
      | PyResult.raises e => PyResult.raises e
      | PyResult.ok t => PyResult.ok t

/-- Embedding of `DocumentProcessor._extract_text_with_ocr`: missing
dependencies short-circuit to an empty string and the catch-all converts any
raise into an empty string. -/
def extract_text_with_ocr (env : OcrEnv) : String :=
  if !(env.tesseract && env.pillow) then ""
  else
    match ocrTryBody env with
    | PyResult.ok t => t
    | PyResult.raises _ => ""

/-- Environment for the claim C7 witness: OCR dependencies present but the
recognition call raises on the single image. -/
def wOcrEnv : OcrEnv :=
  { tesseract := true, pillow := true, pdf2image := true, isPdf := false,
    pages := PyResult.ok [], openImage := PyResult.ok 0,
    recognize := fun _ => PyResult.raises "tesseract failed" }

/-! ### Claim C6: specification-side descriptions of the date extractor -/

/-- Parse of the first date-pattern match of a line against the four formats
in order, shared by the specification-side descriptions. -/
def firstMatchParse (line : List Char) : Option PyDate :=
  (findFirstDate line).bind (fun ds => dateFormats.findSome? (fun f => strptimeOpt f ds))

/-- The date extractor exactly as claim C6 states it: for each keyword in
declaration order, only the first line containing the keyword is the search
window; its first regex match is parsed against the ordered formats, and the
extractor returns null when that window yields no regex match or every
format fails. -/
def extract_date_claim (text : String) (keywords : List String) : Option PyDate :=
  (keywords.map String.toList).findSome? (fun kw =>
    match (splitLines text.toList).find? (fun line => pyIn kw (lowerL line)) with
    | some line => firstMatchParse line
    | none => none)

/-- The amended description: for each keyword in declaration order, every
line containing the keyword is tried in order; the first line whose first
regex match parses under some format wins, and a line whose match fails all
formats falls through to the next line and then to the next keyword. -/
def extract_date_spec (text : String) (keywords : List String) : Option PyDate :=
  (keywords.map String.toList).findSome? (fun kw =>
    (splitLines text.toList).findSome? (fun line =>
      if pyIn kw (lowerL line) then firstMatchParse line else none))

/-- Text separating the claim from the code: the first line containing the
keyword has no date, the second line has one. -/
def c6Text : String := "due date soon\ndue date: 03/15/2024"

/-! ### Claim C5: scenario A -/

/-- The scenario A text of the specification. -/
def scenarioA : String :=
  "Capital Call Notice\nCall Amount: $50,000.00\nDue Date: 03/15/2024"

/-! ### Claim C10: the payment-method extractor -/

/-- Text containing the letters of "ach" only inside the larger word
"attached" and no earlier-listed payment method. -/
def attachedText : String := "Please see the attached documents"

/-! ### Theorems -/

/-- Claim C1: for every input text the classifier returns `capital_call`
exactly when the count of distinct capital-call vocabulary phrases present in
the lower-cased text strictly exceeds the distribution count, returns
`distribution` in the symmetric case, and returns `other` exactly when the
two counts are equal (including the 0-0 case). -/
theorem claim_C1_classifier_decision (text : String) :
    (classify_document_type text = "capital_call" ↔
      capital_call_score text > distribution_score text) ∧
    (classify_document_type text = "distribution" ↔
      distribution_score text > capital_call_score text) ∧
    (classify_document_type text = "other" ↔
      capital_call_score text = distribution_score text) := by
  unfold classify_document_type
  split_ifs with h1 h2
  · exact ⟨⟨fun _ => h1.1, fun _ => rfl⟩,
      ⟨fun h => absurd h (by decide), fun h => absurd h1.1 (by omega)⟩,
      ⟨fun h => absurd h (by decide), fun h => absurd h1.1 (by omega)⟩⟩
  · exact ⟨⟨fun h => absurd h (by decide), fun h => (h1 ⟨h, by omega⟩).elim⟩,
      ⟨fun _ => h2.1, fun _ => rfl⟩,
      ⟨fun h => absurd h (by decide), fun h => absurd h2.1 (by omega)⟩⟩
  · exact ⟨⟨fun h => absurd h (by decide), fun h => (h1 ⟨h, by omega⟩).elim⟩,
      ⟨fun h => absurd h (by decide), fun h => (h2 ⟨h, by omega⟩).elim⟩,
      ⟨fun _ => by omega, fun _ => rfl⟩⟩

theorem mergeFields_eq_lastWrite {V : Type} (schema : List String)
    (items : List (String × Option V)) :
    ∀ (r : String → Option V) (k : String),
    mergeFields schema r items k =
      match lastWrite schema k items with
      | some v => some v
      | none => r k := by
  induction items with
  | nil => intro r k; rfl
  | cons kv rest ih =>
    intro r k
    have h1 : mergeFields schema r (kv :: rest) k
        = mergeFields schema (mergeStep schema r kv) rest k := rfl
    rw [h1, ih]
    cases hlw : lastWrite schema k rest with
    | some v => simp [lastWrite, hlw]
    | none =>
      simp only [lastWrite, hlw]
      unfold mergeStep setField
      rcases hv : kv.2 with _ | v
      · simp [hv]
      · by_cases hk : kv.1 = k
        · by_cases hm : kv.1 ∈ schema
          · subst hk; simp [hv, hm]
          · subst hk; simp [hv, hm]
        · by_cases hm : kv.1 ∈ schema
          · simp [hv, hk, hm]
          · simp [hv, hk, hm]

theorem mergeFields_idem {V : Type} (schema : List String)
    (items : List (String × Option V)) (r : String → Option V) :
    mergeFields schema (mergeFields schema r items) items = mergeFields schema r items := by
  funext k
  rw [mergeFields_eq_lastWrite schema items (mergeFields schema r items) k,
    mergeFields_eq_lastWrite schema items r k]
  cases lastWrite schema k items <;> simp

theorem lastWrite_of_not_mem {V : Type} (schema : List String) (k : String)
    (items : List (String × Option V)) (h : k ∉ items.map Prod.fst) :
    lastWrite schema k items = none := by
  induction items with
  | nil => rfl
  | cons kv rest ih =>
    simp only [List.map_cons, List.mem_cons, not_or] at h
    simp only [lastWrite, ih h.2]
    have : (kv.1 = k) = False := by
      simp only [eq_iff_iff, iff_false]
      exact fun he => h.1 he.symm
    simp [this]

theorem lastWrite_of_nodup {V : Type} (schema : List String) (k : String)
    (items : List (String × Option V)) (h : (items.map Prod.fst).Nodup) :
    lastWrite schema k items =
      match lookupField k items with
      | some v0 => if schema.contains k && v0.isSome then v0 else none
      | none => none := by
  induction items with
  | nil => rfl
  | cons kv rest ih =>
    simp only [List.map_cons, List.nodup_cons] at h
    by_cases hk : kv.1 = k
    · subst hk
      have hnm : (kv.1 : String) ∉ rest.map Prod.fst := h.1
      simp only [lastWrite, lastWrite_of_not_mem schema kv.1 rest hnm, lookupField,
        if_pos rfl]
      simp
    · have : lastWrite schema k (kv :: rest) = lastWrite schema k rest := by
        simp only [lastWrite]
        cases lastWrite schema k rest with
        | some v => rfl
        | none => simp [hk]
      rw [this, ih h.2]
      simp [lookupField, hk]

theorem findRow_updateFirst {V : Type} (schema : List String) (docId : Nat)
    (items : List (String × Option V)) (t : List (Nat × (String → Option V))) :
    findRow docId (updateFirst schema docId items t)
      = (findRow docId t).map (fun r => mergeFields schema r items) := by
  induction t with
  | nil => rfl
  | cons row rest ih =>
    by_cases hr : row.1 = docId
    · simp [updateFirst, findRow, hr]
    · simp [updateFirst, findRow, hr, ih]

theorem updateFirst_idem {V : Type} (schema : List String) (docId : Nat)
    (items : List (String × Option V)) (t : List (Nat × (String → Option V))) :
    updateFirst schema docId items (updateFirst schema docId items t)
      = updateFirst schema docId items t := by
  induction t with
  | nil => rfl
  | cons row rest ih =>
    by_cases hr : row.1 = docId
    · simp [updateFirst, hr, mergeFields_idem]
    · simp [updateFirst, hr, ih]

theorem findRow_none_all_ne {V : Type} (docId : Nat)
    (t : List (Nat × (String → Option V))) (h : findRow docId t = none) :
    ∀ row ∈ t, row.1 ≠ docId := by
  induction t with
  | nil => intro row hm; cases hm
  | cons row rest ih =>
    intro q hq
    by_cases hr : row.1 = docId
    · simp [findRow, hr] at h
    · rcases List.mem_cons.mp hq with hq | hq
      · rw [hq]; exact hr
      · exact ih (by simpa [findRow, hr] using h) q hq

theorem findRow_append_last {V : Type} (docId : Nat)
    (t : List (Nat × (String → Option V))) (x : String → Option V)
    (h : ∀ row ∈ t, row.1 ≠ docId) :
    findRow docId (t ++ [(docId, x)]) = some x := by
  induction t with
  | nil => simp [findRow]
  | cons row rest ih =>
    have hr : row.1 ≠ docId := h row (by simp)
    simp only [List.cons_append, findRow, if_neg hr]
    exact ih (fun q hq => h q (by simp [hq]))

theorem updateFirst_append_last {V : Type} (schema : List String) (docId : Nat)
    (items : List (String × Option V)) (t : List (Nat × (String → Option V)))
    (x : String → Option V) (h : ∀ row ∈ t, row.1 ≠ docId) :
    updateFirst schema docId items (t ++ [(docId, x)])
      = t ++ [(docId, mergeFields schema x items)] := by
  induction t with
  | nil => simp [updateFirst]
  | cons row rest ih =>
    have hr : row.1 ≠ docId := h row (by simp)
    simp only [List.cons_append, updateFirst, if_neg hr]
    exact congrArg (fun l => row :: l) (ih (fun q hq => h q (by simp [hq])))

theorem countRows_updateFirst {V : Type} (schema : List String) (docId : Nat)
    (items : List (String × Option V)) (t : List (Nat × (String → Option V))) :
    countRows docId (updateFirst schema docId items t) = countRows docId t := by
  induction t with
  | nil => rfl
  | cons row rest ih =>
    by_cases hr : row.1 = docId
    · simp [updateFirst, countRows, hr, List.filter]
    · simp only [updateFirst, if_neg hr]
      by_cases hb : (row.1 == docId) = true
      · exact absurd (by simpa using hb) hr
      · simp only [countRows, List.filter, hb]
        exact ih

theorem countRows_pos_of_findRow {V : Type} (docId : Nat)
    (t : List (Nat × (String → Option V))) (r : String → Option V)
    (h : findRow docId t = some r) : 1 ≤ countRows docId t := by
  induction t with
  | nil => simp [findRow] at h
  | cons row rest ih =>
    by_cases hr : row.1 = docId
    · simp [countRows, List.filter, hr]
    · have hb : (row.1 == docId) = false := by
        simpa using hr
      simp only [countRows, List.filter, hb]
      exact ih (by simpa [findRow, hr] using h)

theorem countRows_zero_of_findRow_none {V : Type} (docId : Nat)
    (t : List (Nat × (String → Option V))) (h : findRow docId t = none) :
    countRows docId t = 0 := by
  induction t with
  | nil => rfl
  | cons row rest ih =>
    by_cases hr : row.1 = docId
    · simp [findRow, hr] at h
    · have hb : (row.1 == docId) = false := by simpa using hr
      simp only [countRows, List.filter, hb]
      exact ih (by simpa [findRow, hr] using h)

theorem countRows_append_last {V : Type} (docId : Nat)
    (t : List (Nat × (String → Option V))) (x : String → Option V) :
    countRows docId (t ++ [(docId, x)]) = countRows docId t + 1 := by
  simp [countRows, List.filter_append]

/-- Claim C3: for every existing detail record and extracted field set (with
the distinct keys of a Python dictionary), the merge sets exactly the
schema-declared fields whose extracted value is non-null; a field extracted
as null keeps its prior value, so a previously set non-null field is never
cleared, and keys outside the declared schema are silently ignored. -/
theorem claim_C3_merge_frame {V : Type} (schema : List String)
    (r : String → Option V) (items : List (String × Option V))
    (h : (items.map Prod.fst).Nodup) (k : String) :
    (mergeFields schema r items k =
      match lookupField k items with
      | some v0 => if schema.contains k && v0.isSome then v0 else r k
      | none => r k)
    ∧ ((r k).isSome → (mergeFields schema r items k).isSome) := by
  have hc : mergeFields schema r items k =
      match lookupField k items with
      | some v0 => if schema.contains k && v0.isSome then v0 else r k
      | none => r k := by
    rw [mergeFields_eq_lastWrite schema items r k, lastWrite_of_nodup schema k items h]
    cases hl : lookupField k items with
    | none => rfl
    | some v0 =>
      by_cases hcond : (schema.contains k && v0.isSome) = true
      · rcases v0 with _ | v
        · simp at hcond
        · by_cases hm : k ∈ schema <;> simp [hm]
      · simp only [hcond]
        simp [eq_false_of_ne_true hcond]
  refine ⟨hc, fun hr => ?_⟩
  rw [hc]
  cases hl : lookupField k items with
  | none => exact hr
  | some v0 =>
    by_cases hcond : (schema.contains k && v0.isSome) = true
    · simp only [hcond, if_true]
      exact (Bool.and_elim_right hcond)
    · simp only [eq_false_of_ne_true hcond, if_false]
      exact hr

/-- Claim C3 witness: the characterization applied at a concrete schema,
record and field set with distinct keys. -/
theorem claim_C3_merge_frame_witness :
    (wItems.map Prod.fst).Nodup ∧
    ((mergeFields wSchema wRecord wItems "a" =
       match lookupField "a" wItems with
       | some v0 => if wSchema.contains "a" && v0.isSome then v0 else wRecord "a"
       | none => wRecord "a")
     ∧ ((wRecord "a").isSome → (mergeFields wSchema wRecord wItems "a").isSome)) :=
  ⟨by decide, claim_C3_merge_frame wSchema wRecord wItems (by decide) "a"⟩

theorem upsertDetail_idem {V : Type} (schema : List String)
    (table : List (Nat × (String → Option V))) (docId : Nat)
    (items : List (String × Option V)) :
    upsertDetail schema (upsertDetail schema table docId items) docId items
      = upsertDetail schema table docId items := by
  cases hf : findRow docId table with
  | some r =>
    have h1 : upsertDetail schema table docId items
        = updateFirst schema docId items table := by
      simp [upsertDetail, hf]
    rw [h1]
    have h2 : findRow docId (updateFirst schema docId items table)
        = some (mergeFields schema r items) := by
      rw [findRow_updateFirst, hf]; rfl
    simp [upsertDetail, h2, updateFirst_idem]
  | none =>
    have hall := findRow_none_all_ne docId table hf
    have h1 : upsertDetail schema table docId items
        = table ++ [(docId, mergeFields schema emptyRecord items)] := by
      simp [upsertDetail, hf]
    rw [h1]
    have h2 := findRow_append_last docId table
      (mergeFields schema emptyRecord items) hall
    simp only [upsertDetail, h2]
    rw [updateFirst_append_last schema docId items table _ hall]
    rw [mergeFields_idem]

theorem countRows_upsertDetail {V : Type} (schema : List String)
    (table : List (Nat × (String → Option V))) (docId : Nat)
    (items : List (String × Option V)) (hle : countRows docId table ≤ 1) :
    countRows docId (upsertDetail schema table docId items) = 1 := by
  cases hf : findRow docId table with
  | some r =>
    have h1 : upsertDetail schema table docId items
        = updateFirst schema docId items table := by
      simp [upsertDetail, hf]
    rw [h1, countRows_updateFirst]
    have := countRows_pos_of_findRow docId table r hf
    omega
  | none =>
    have h1 : upsertDetail schema table docId items
        = table ++ [(docId, mergeFields schema emptyRecord items)] := by
      simp [upsertDetail, hf]
    rw [h1, countRows_append_last, countRows_zero_of_findRow_none docId table hf]

/-- Claim C4: for both categories, running the field extraction engine
followed by the merge into the per-category detail record twice on identical
text yields the same detail table as running it once, and, starting from a
table holding at most one record for the document, the run leaves exactly
one record for it (the second run updates the same row instead of inserting
a duplicate).  The capital-call branch targets `CapitalCallDetail` and the
distribution branch targets `DistributionDetail`. -/
theorem claim_C4_reconcile_idempotent
    (tableC tableD : List (Nat × (String → Option PyValue)))
    (docId : Nat) (text : String) :
    (reconcile_capital_call (reconcile_capital_call tableC docId text) docId text
      = reconcile_capital_call tableC docId text)
    ∧ (countRows docId tableC ≤ 1 →
        countRows docId (reconcile_capital_call tableC docId text) = 1)
    ∧ (reconcile_distribution (reconcile_distribution tableD docId text) docId text
      = reconcile_distribution tableD docId text)
    ∧ (countRows docId tableD ≤ 1 →
        countRows docId (reconcile_distribution tableD docId text) = 1) := by
  have hcc : (extract_capital_call_data text).isEmpty = false := rfl
  have hdd : (extract_distribution_data text).isEmpty = false := rfl
  refine ⟨?_, ?_, ?_, ?_⟩
  · unfold reconcile_capital_call
    simp only [hcc, Bool.false_eq_true, if_false]
    exact upsertDetail_idem capitalCallSchema tableC docId (extract_capital_call_data text)
  · intro hle
    unfold reconcile_capital_call
    simp only [hcc, Bool.false_eq_true, if_false]
    exact countRows_upsertDetail capitalCallSchema tableC docId
      (extract_capital_call_data text) hle
  · unfold reconcile_distribution
    simp only [hdd, Bool.false_eq_true, if_false]
    exact upsertDetail_idem distributionSchema tableD docId (extract_distribution_data text)
  · intro hle
    unfold reconcile_distribution
    simp only [hdd, Bool.false_eq_true, if_false]
    exact countRows_upsertDetail distributionSchema tableD docId
      (extract_distribution_data text) hle

/-- Claim C4 witness: the idempotence and single-record conclusions of both
category branches applied to empty tables, a concrete document id and a
concrete text, with the at-most-one-row hypotheses discharged. -/
theorem claim_C4_reconcile_idempotent_witness :
    (reconcile_capital_call (reconcile_capital_call [] 7 "Call Amount: 50000") 7
        "Call Amount: 50000"
      = reconcile_capital_call [] 7 "Call Amount: 50000")
    ∧ countRows 7 (reconcile_capital_call [] 7 "Call Amount: 50000") = 1
    ∧ (reconcile_distribution (reconcile_distribution [] 7 "Call Amount: 50000") 7
        "Call Amount: 50000"
      = reconcile_distribution [] 7 "Call Amount: 50000")
    ∧ countRows 7 (reconcile_distribution [] 7 "Call Amount: 50000") = 1 :=
  ⟨(claim_C4_reconcile_idempotent [] [] 7 "Call Amount: 50000").1,
   (claim_C4_reconcile_idempotent [] [] 7 "Call Amount: 50000").2.1 (by decide),
   (claim_C4_reconcile_idempotent [] [] 7 "Call Amount: 50000").2.2.1,
   (claim_C4_reconcile_idempotent [] [] 7 "Call Amount: 50000").2.2.2 (by decide)⟩

/-- Claim C2 counterexample: a processing request through the background
task against a document already `completed` is not rejected; it is admitted
and the stored status changes to `processing`, contradicting the claim that
every processing request against a `processing` or `completed` document is
rejected with a conflict and leaves the state unchanged. -/
theorem claim_C2_counterexample :
    process_request_admission RequestPath.task (some DocStatus.completed)
      = (ProcessOutcome.admitted, some DocStatus.processing)
    ∧ process_request_admission RequestPath.task (some DocStatus.completed)
      ≠ (ProcessOutcome.conflict, some DocStatus.completed) := by
  exact ⟨rfl, by decide⟩

/-- Claim C2 as amended: through the API endpoint, a request against a
document in `processing` or `completed` is rejected with a conflict signal
and the stored status is unchanged, and exactly the `pending` and `failed`
statuses are admitted into `processing`; the background-task entry point
performs no admission guard and unconditionally moves any existing document
to `processing`. -/
theorem claim_C2_admission_guard (st : DocStatus) :
    ((st = DocStatus.processing ∨ st = DocStatus.completed) →
      api_process_admission (some st) = (ProcessOutcome.conflict, some st))
    ∧ ((st = DocStatus.pending ∨ st = DocStatus.failed) →
      api_process_admission (some st)
        = (ProcessOutcome.admitted, some DocStatus.processing))
    ∧ ((api_process_admission (some st)).1 = ProcessOutcome.conflict ↔
      (st = DocStatus.processing ∨ st = DocStatus.completed))
    ∧ process_request_admission RequestPath.task (some st)
      = (ProcessOutcome.admitted, some DocStatus.processing) := by
  cases st <;> simp [api_process_admission, process_request_admission]

/-- Claim C2 witness: the amended guard evaluated at the `processing` and
`pending` statuses with the hypotheses discharged. -/
theorem claim_C2_admission_guard_witness :
    api_process_admission (some DocStatus.processing)
      = (ProcessOutcome.conflict, some DocStatus.processing)
    ∧ api_process_admission (some DocStatus.pending)
      = (ProcessOutcome.admitted, some DocStatus.processing) :=
  ⟨(claim_C2_admission_guard DocStatus.processing).1 (Or.inl rfl),
   (claim_C2_admission_guard DocStatus.pending).2.1 (Or.inl rfl)⟩

/-- Claim C9: the sweep deletes exactly the regular files modified more than
7 days before the sweep time whose deletion succeeds, and counts them; a
deletion failure is skipped without aborting the rest of the sweep, and when
no deletion fails the surviving entries are exactly those that are not
regular files older than 7 days (so an 8-day-old file is removed and a
1-day-old file is retained). -/
theorem claim_C9_cleanup_retention (now : Int) (entries : List FsEntry) :
    ((cleanup_old_files now entries).1
      = entries.filter
          (fun e => !(e.isFile && decide (e.mtime < now - 7 * 86400) && !e.unlinkFails)))
    ∧ ((cleanup_old_files now entries).2
      = (entries.filter
          (fun e => e.isFile && decide (e.mtime < now - 7 * 86400) && !e.unlinkFails)).length)
    ∧ ((∀ e ∈ entries, e.unlinkFails = false) →
        (cleanup_old_files now entries).1
          = entries.filter (fun e => !(e.isFile && decide (e.mtime < now - 7 * 86400)))) := by
  induction entries with
  | nil => exact ⟨rfl, rfl, fun _ => rfl⟩
  | cons e rest ih =>
    refine ⟨?_, ?_, ?_⟩
    · by_cases hf : e.isFile = true <;>
        by_cases hm : e.mtime < now - 604800 <;>
        by_cases hu : e.unlinkFails = true <;>
        simp [cleanup_old_files, List.filter, hf, hm, hu, ih.1]
    · by_cases hf : e.isFile = true <;>
        by_cases hm : e.mtime < now - 604800 <;>
        by_cases hu : e.unlinkFails = true <;>
        simp [cleanup_old_files, List.filter, hf, hm, hu, ih.2.1]
    · intro hok
      have he : e.unlinkFails = false := hok e (by simp)
      have hrest := ih.2.2 (fun q hq => hok q (by simp [hq]))
      by_cases hf : e.isFile = true <;>
        by_cases hm : e.mtime < now - 604800 <;>
        simp [cleanup_old_files, List.filter, hf, hm, he, hrest]

/-- Claim C9 witness: with the sweep at time 0, the 8-day-old regular file
is deleted and the 1-day-old regular file is retained; a failing deletion is
skipped while the sweep still counts the other old file. -/
theorem claim_C9_cleanup_retention_witness :
    ((cleanup_old_files 0 wEntriesA).1
      = wEntriesA.filter (fun e => !(e.isFile && decide (e.mtime < 0 - 7 * 86400))))
    ∧ ((cleanup_old_files 0 wEntriesB).2
      = (wEntriesB.filter
          (fun e => e.isFile && decide (e.mtime < 0 - 7 * 86400) && !e.unlinkFails)).length) :=
  ⟨(claim_C9_cleanup_retention 0 wEntriesA).2.2 (by decide),
   (claim_C9_cleanup_retention 0 wEntriesB).2.1⟩

/-- Claim C7: when the structural converter is unavailable or its conversion
raises, the adapter returns `success = false` together with a captured error
string instead of propagating; and when the OCR dependencies are missing or
anything in the recognition path raises, the OCR text is the empty string
rather than a failure. -/
theorem claim_C7_adapter_degrades (available : Bool)
    (convert : PyResult (String × String)) (env : OcrEnv) :
    ((available = false ∨ ∃ e, convert = PyResult.raises e) →
      (process_with_docling available convert).success = false
      ∧ (process_with_docling available convert).error.isSome)
    ∧ ((env.tesseract = false ∨ env.pillow = false ∨
          ∃ e, ocrTryBody env = PyResult.raises e) →
        extract_text_with_ocr env = "") := by
  constructor
  · rintro (ha | ⟨e, he⟩)
    · subst ha; exact ⟨rfl, rfl⟩
    · subst he
      cases available
      · exact ⟨rfl, rfl⟩
      · exact ⟨rfl, rfl⟩
  · rintro (ht | hp | ⟨e, he⟩)
    · simp [extract_text_with_ocr, ht]
    · simp [extract_text_with_ocr, hp]
    · unfold extract_text_with_ocr
      rw [he]
      cases env.tesseract && env.pillow <;> rfl

/-- Claim C7 witness: an unavailable structural converter degrades to a
failed result with a captured error, and a raising recognition backend
yields the empty OCR string. -/
theorem claim_C7_adapter_degrades_witness :
    ((process_with_docling false (PyResult.ok ("tree", "md"))).success = false
      ∧ (process_with_docling false (PyResult.ok ("tree", "md"))).error.isSome)
    ∧ extract_text_with_ocr wOcrEnv = "" :=
  ⟨(claim_C7_adapter_degrades false (PyResult.ok ("tree", "md")) wOcrEnv).1
      (Or.inl rfl),
   (claim_C7_adapter_degrades false (PyResult.ok ("tree", "md")) wOcrEnv).2
      (Or.inr (Or.inr ⟨"tesseract failed", rfl⟩))⟩

theorem leadsWith_iff (n : List Char) : ∀ h : List Char,
    leadsWith n h = true ↔ n <+: h := by
  induction n with
  | nil => intro h; simp [leadsWith]
  | cons a as ih =>
    intro h
    cases h with
    | nil =>
      rw [show leadsWith (a :: as) [] = false from rfl]
      simp [List.prefix_nil]
    | cons b bs =>
      rw [show leadsWith (a :: as) (b :: bs) = (decide (a = b) && leadsWith as bs) from rfl]
      rw [Bool.and_eq_true, decide_eq_true_eq, ih bs, List.cons_prefix_cons]

theorem pyIn_iff (n : List Char) : ∀ h : List Char, pyIn n h = true ↔ n <:+: h := by
  intro h
  induction h with
  | nil =>
    rw [show pyIn n [] = leadsWith n [] from rfl, leadsWith_iff]
    constructor
    · exact fun hp => hp.isInfix
    · intro hi; rw [List.infix_nil] at hi; subst hi; exact List.nil_prefix
  | cons c rest ih =>
    rw [show pyIn n (c :: rest) = (leadsWith n (c :: rest) || pyIn n rest) from rfl]
    rw [Bool.or_eq_true, leadsWith_iff, ih, List.infix_cons_iff]

theorem splitLines_shape (l : List Char) :
    ∃ m ms, splitLines l = m :: ms ∧ m <+: l ∧ ∀ x ∈ ms, x <:+: l := by
  induction l with
  | nil => exact ⟨[], [], rfl, List.nil_prefix, by simp⟩
  | cons c rest ih =>
    obtain ⟨m, ms, hs, hp, hi⟩ := ih
    by_cases hc : c = '\n'
    · refine ⟨[], m :: ms, by simp [splitLines, hs, hc], List.nil_prefix, ?_⟩
      intro x hx
      rcases List.mem_cons.mp hx with rfl | hx
      · exact List.infix_cons hp.isInfix
      · exact List.infix_cons (hi x hx)
    · obtain ⟨t, ht⟩ := hp
      refine ⟨c :: m, ms, by simp [splitLines, hs, hc], ⟨t, by simp [ht]⟩, ?_⟩
      intro x hx
      exact List.infix_cons (hi x hx)

theorem mem_splitLines_within (l x : List Char) (hx : x ∈ splitLines l) : x <:+: l := by
  obtain ⟨m, ms, hs, hp, hi⟩ := splitLines_shape l
  rw [hs] at hx
  rcases List.mem_cons.mp hx with rfl | hx
  · exact hp.isInfix
  · exact hi x hx

theorem pyIn_text_of_line (kw text line : List Char) (hline : line ∈ splitLines text)
    (h : pyIn kw (lowerL line) = true) : pyIn kw (lowerL text) = true := by
  rw [pyIn_iff] at h ⊢
  exact h.trans ((mem_splitLines_within text line hline).map Char.toLower)

theorem dateFmtLoop_strptime (ds : List Char) : ∀ fmts : List DateFmt,
    dateFmtLoop strptimeExc ds fmts
      = Except.ok (fmts.findSome? (fun f => strptimeOpt f ds)) := by
  intro fmts
  induction fmts with
  | nil => rfl
  | cons f fs ih =>
    simp only [dateFmtLoop, strptimeExc, List.findSome?_cons]
    cases strptimeOpt f ds with
    | some d => rfl
    | none => exact ih

theorem dateLineLoop_spec (kw : List Char) : ∀ lines : List (List Char),
    dateLineLoop strptimeExc kw lines
      = Except.ok (lines.findSome? (fun line =>
          if pyIn kw (lowerL line) then firstMatchParse line else none)) := by
  intro lines
  induction lines with
  | nil => rfl
  | cons line rest ih =>
    by_cases hk : pyIn kw (lowerL line) = true
    · cases hd : findFirstDate line with
      | none =>
        simp [dateLineLoop, hk, hd, List.findSome?_cons, firstMatchParse, ih]
      | some ds =>
        have hf := dateFmtLoop_strptime ds dateFormats
        cases hp : dateFormats.findSome? (fun f => strptimeOpt f ds) with
        | some d =>
          simp [dateLineLoop, hk, hd, List.findSome?_cons, firstMatchParse, hf, hp]
        | none =>
          simp [dateLineLoop, hk, hd, List.findSome?_cons, firstMatchParse, hf, hp, ih]
    · have hk2 : pyIn kw (lowerL line) = false := eq_false_of_ne_true hk
      simp [dateLineLoop, hk2, List.findSome?_cons, ih]

theorem dateKeywordLoop_spec (text : String) : ∀ kws : List (List Char),
    dateKeywordLoop strptimeExc (lowerL text.toList) (splitLines text.toList) kws
      = Except.ok (kws.findSome? (fun kw =>
          (splitLines text.toList).findSome? (fun line =>
            if pyIn kw (lowerL line) then firstMatchParse line else none))) := by
  intro kws
  induction kws with
  | nil => rfl
  | cons kw rest ih =>
    by_cases hg : pyIn kw (lowerL text.toList) = true
    · simp only [dateKeywordLoop, hg, if_true, List.findSome?_cons]
      rw [dateLineLoop_spec kw (splitLines text.toList)]
      cases hp : (splitLines text.toList).findSome? (fun line =>
          if pyIn kw (lowerL line) then firstMatchParse line else none) with
      | some d => rfl
      | none => exact ih
    · have hnone : (splitLines text.toList).findSome? (fun line =>
          if pyIn kw (lowerL line) then firstMatchParse line else none) = none := by
        refine List.findSome?_eq_none_iff.mpr (fun line hline => ?_)
        have : pyIn kw (lowerL line) = false := by
          by_contra hcon
          exact hg (pyIn_text_of_line kw text.toList line hline
            (by revert hcon; cases pyIn kw (lowerL line) <;> simp))
        simp [this]
      simp only [dateKeywordLoop, hg, if_false, List.findSome?_cons, hnone]
      exact ih

/-- Claim C6 counterexample: on a text whose first keyword-bearing line has
no date while a later one does, the source extractor keeps scanning and
returns the date, whereas the claim (window limited to the first line
containing the keyword) predicts null. -/
theorem claim_C6_counterexample :
    extract_date c6Text ["due date"] = some ⟨2024, 3, 15⟩
    ∧ extract_date_claim c6Text ["due date"] = none := by
  constructor
  · rfl
  · rfl

/-- Claim C6 as amended: the extractor tries keywords in declaration order
and, for each keyword, every line containing it (lower-cased substring
match) in order; within a line the first regex match is parsed against the
ordered formats MM/DD/YYYY, MM-DD-YYYY, YYYY-MM-DD, MM/DD/YY and the first
success is returned; a line whose match fails every format falls through to
the next line, and the extractor returns null when no keyword-bearing line
yields a parse. -/
theorem claim_C6_date_extractor (text : String) (keywords : List String) :
    extract_date text keywords = extract_date_spec text keywords := by
  unfold extract_date extract_dateP extract_date_spec
  rw [dateKeywordLoop_spec text (keywords.map String.toList)]

/-- Claim C5 evaluated on the code: the classifier does return
`capital_call` and the date extractor does return 2024-03-15, but the amount
extractor returns null instead of 50000.0: `re.findall` with the one-group
currency pattern yields the capture group, which is empty for a dollar
match, so `float` on the cleaned empty string raises and the `continue`
skips the bare-amount fallback for that line. -/
theorem claim_C5_scenarioA :
    classify_document_type scenarioA = "capital_call"
    ∧ extract_date scenarioA ["due date", "payment due", "deadline"]
        = some { year := 2024, month := 3, day := 15 }
    ∧ extract_amount scenarioA ["call amount", "contribution", "capital call"] = none :=
  ⟨rfl, rfl, rfl⟩

theorem methodLoop_eq_find (tl : List Char) : ∀ ms : List String,
    methodLoop tl ms = ms.find? (fun m => pyIn m.toList tl) := by
  intro ms
  induction ms with
  | nil => rfl
  | cons m ms ih =>
    rw [show methodLoop tl (m :: ms)
        = (if pyIn m.toList tl then some m else methodLoop tl ms) from rfl]
    rw [List.find?_cons, ih]
    cases pyIn m.toList tl <;> simp

theorem find?_isNone_all (p : String → Bool) : ∀ l : List String,
    (l.find? p).isNone = l.all (fun x => !(p x)) := by
  intro l
  induction l with
  | nil => rfl
  | cons x xs ih =>
    rw [List.find?_cons, List.all_cons]
    cases p x <;> simp [ih]

/-- Claim C10: the payment-method extractor returns the first entry of the
fixed method list, in list order, occurring as a substring of the
lower-cased text (no word-boundary test), null exactly when none occurs; in
particular a text containing "ach" only inside "attached" and no
earlier-listed method yields "ach". -/
theorem claim_C10_payment_method (text : String) :
    extract_payment_method text
      = payment_methods.find? (fun m => pyIn m.toList (lowerL text.toList))
    ∧ ((extract_payment_method text).isNone
      = payment_methods.all (fun m => !(pyIn m.toList (lowerL text.toList))))
    ∧ extract_payment_method attachedText = some "ach" := by
  refine ⟨methodLoop_eq_find (lowerL text.toList) payment_methods, ?_, rfl⟩
  rw [extract_payment_method, methodLoop_eq_find (lowerL text.toList) payment_methods]
  exact find?_isNone_all (fun m => pyIn m.toList (lowerL text.toList)) payment_methods

/-! ### Claim C8: exception isolation of the field extractors -/

theorem dateFmtLoop_no_valueError (p : DateFmt → List Char → Except PyExc PyDate)
    (ds : List Char) : ∀ fmts : List DateFmt,
    dateFmtLoop p ds fmts ≠ Except.error PyExc.valueError := by
  intro fmts
  induction fmts with
  | nil => simp [dateFmtLoop]
  | cons f fs ih =>
    cases hp : p f ds with
    | ok d => simp [dateFmtLoop, hp]
    | error e =>
      cases e
      · simpa [dateFmtLoop, hp] using ih
      · simp [dateFmtLoop, hp]

theorem dateLineLoop_no_valueError (p : DateFmt → List Char → Except PyExc PyDate)
    (kw : List Char) : ∀ lines : List (List Char),
    dateLineLoop p kw lines ≠ Except.error PyExc.valueError := by
  intro lines
  induction lines with
  | nil => simp [dateLineLoop]
  | cons line rest ih =>
    by_cases hk : pyIn kw (lowerL line) = true
    · cases hd : findFirstDate line with
      | none => simpa [dateLineLoop, hk, hd] using ih
      | some ds =>
        cases hf : dateFmtLoop p ds dateFormats with
        | ok r =>
          cases r with
          | some d => simp [dateLineLoop, hk, hd, hf]
          | none => simpa [dateLineLoop, hk, hd, hf] using ih
        | error e =>
          have hne := dateFmtLoop_no_valueError p ds dateFormats
          rw [hf] at hne
          cases e
          · exact absurd rfl hne
          · simp [dateLineLoop, hk, hd, hf]
    · have hk2 := eq_false_of_ne_true hk
      simpa [dateLineLoop, hk2] using ih

theorem dateKeywordLoop_no_valueError (p : DateFmt → List Char → Except PyExc PyDate)
    (tl : List Char) (lines : List (List Char)) : ∀ kws : List (List Char),
    dateKeywordLoop p tl lines kws ≠ Except.error PyExc.valueError := by
  intro kws
  induction kws with
  | nil => simp [dateKeywordLoop]
  | cons kw rest ih =>
    by_cases hg : pyIn kw tl = true
    · cases hl : dateLineLoop p kw lines with
      | ok r =>
        cases r with
        | some d => simp [dateKeywordLoop, hg, hl]
        | none => simpa [dateKeywordLoop, hg, hl] using ih
      | error e =>
        have hne := dateLineLoop_no_valueError p kw lines
        rw [hl] at hne
        cases e
        · exact absurd rfl hne
        · simp [dateKeywordLoop, hg, hl]
    · have hg2 := eq_false_of_ne_true hg
      simpa [dateKeywordLoop, hg2] using ih

theorem amountLineLoop_no_valueError (f : List Char → Except PyExc Rat)
    (kw : List Char) : ∀ lines : List (List Char),
    amountLineLoop f kw lines ≠ Except.error PyExc.valueError := by
  intro lines
  induction lines with
  | nil => simp [amountLineLoop]
  | cons line rest ih =>
    by_cases hk : pyIn kw (lowerL line) = true
    · cases hc : findFirstCurrencyGroup line with
      | some g =>
        cases hf : f (dropCommas (keepNumChars g)) with
        | ok v => simp [amountLineLoop, hk, hc, hf]
        | error e =>
          cases e
          · simpa [amountLineLoop, hk, hc, hf] using ih
          · simp [amountLineLoop, hk, hc, hf]
      | none =>
        cases ha : findFirstAmount line with
        | some m =>
          cases hf : f (dropCommas m) with
          | ok v => simp [amountLineLoop, hk, hc, ha, hf]
          | error e =>
            cases e
            · simpa [amountLineLoop, hk, hc, ha, hf] using ih
            · simp [amountLineLoop, hk, hc, ha, hf]
        | none => simpa [amountLineLoop, hk, hc, ha] using ih
    · have hk2 := eq_false_of_ne_true hk
      simpa [amountLineLoop, hk2] using ih

theorem amountKeywordLoop_no_valueError (f : List Char → Except PyExc Rat)
    (tl : List Char) (lines : List (List Char)) : ∀ kws : List (List Char),
    amountKeywordLoop f tl lines kws ≠ Except.error PyExc.valueError := by
  intro kws
  induction kws with
  | nil => simp [amountKeywordLoop]
  | cons kw rest ih =>
    by_cases hg : pyIn kw tl = true
    · cases hl : amountLineLoop f kw lines with
      | ok r =>
        cases r with
        | some v => simp [amountKeywordLoop, hg, hl]
        | none => simpa [amountKeywordLoop, hg, hl] using ih
      | error e =>
        have hne := amountLineLoop_no_valueError f kw lines
        rw [hl] at hne
        cases e
        · exact absurd rfl hne
        · simp [amountKeywordLoop, hg, hl]
    · have hg2 := eq_false_of_ne_true hg
      simpa [amountKeywordLoop, hg2] using ih

theorem pctLineLoop_no_valueError (f : List Char → Except PyExc Rat)
    (kw : List Char) : ∀ lines : List (List Char),
    pctLineLoop f kw lines ≠ Except.error PyExc.valueError := by
  intro lines
  induction lines with
  | nil => simp [pctLineLoop]
  | cons line rest ih =>
    by_cases hk : pyIn kw (lowerL line) = true
    · cases hc : findFirstPct line with
      | some m =>
        cases hf : f (dropPctSigns m) with
        | ok v => simp [pctLineLoop, hk, hc, hf]
        | error e =>
          cases e
          · simpa [pctLineLoop, hk, hc, hf] using ih
          · simp [pctLineLoop, hk, hc, hf]
      | none => simpa [pctLineLoop, hk, hc] using ih
    · have hk2 := eq_false_of_ne_true hk
      simpa [pctLineLoop, hk2] using ih

theorem pctKeywordLoop_no_valueError (f : List Char → Except PyExc Rat)
    (tl : List Char) (lines : List (List Char)) : ∀ kws : List (List Char),
    pctKeywordLoop f tl lines kws ≠ Except.error PyExc.valueError := by
  intro kws
  induction kws with
  | nil => simp [pctKeywordLoop]
  | cons kw rest ih =>
    by_cases hg : pyIn kw tl = true
    · cases hl : pctLineLoop f kw lines with
      | ok r =>
        cases r with
        | some v => simp [pctKeywordLoop, hg, hl]
        | none => simpa [pctKeywordLoop, hg, hl] using ih
      | error e =>
        have hne := pctLineLoop_no_valueError f kw lines
        rw [hl] at hne
        cases e
        · exact absurd rfl hne
        · simp [pctKeywordLoop, hg, hl]
    · have hg2 := eq_false_of_ne_true hg
      simpa [pctKeywordLoop, hg2] using ih

/-- Claim C8: no extractor propagates an exception to its caller.  Every
`ValueError` a parsing primitive can raise is consumed by the inner handler
of its loop, for every possible behaviour of the primitive (the loops never
evaluate to a `ValueError`; any other exception is consumed by the outer
catch-all, which the public extractors apply).  Moreover each field of the
two aggregate extractions equals the standalone extractor applied to the
same text, so an internal failure resolving one field to null cannot abort
or alter the extraction of any other field. -/
theorem claim_C8_extractor_isolation :
    (∀ (p : DateFmt → List Char → Except PyExc PyDate) (tl : List Char)
        (lines kws : List (List Char)),
      dateKeywordLoop p tl lines kws ≠ Except.error PyExc.valueError)
    ∧ (∀ (f : List Char → Except PyExc Rat) (tl : List Char)
        (lines kws : List (List Char)),
      amountKeywordLoop f tl lines kws ≠ Except.error PyExc.valueError)
    ∧ (∀ (f : List Char → Except PyExc Rat) (tl : List Char)
        (lines kws : List (List Char)),
      pctKeywordLoop f tl lines kws ≠ Except.error PyExc.valueError)
    ∧ (∀ text : String,
          lookupField "call_date" (extract_capital_call_data text)
            = some ((extract_date text ["call date", "notice date", "date"]).map PyValue.date)
        ∧ lookupField "due_date" (extract_capital_call_data text)
            = some ((extract_date text ["due date", "payment due", "deadline"]).map PyValue.date)
        ∧ lookupField "call_amount" (extract_capital_call_data text)
            = some ((extract_amount text ["call amount", "contribution", "capital call"]).map PyValue.num)
        ∧ lookupField "lp_commitment" (extract_capital_call_data text)
            = some ((extract_amount text ["commitment", "total commitment"]).map PyValue.num)
        ∧ lookupField "remaining_commitment" (extract_capital_call_data text)
            = some ((extract_amount text ["remaining commitment", "outstanding"]).map PyValue.num)
        ∧ lookupField "call_percentage" (extract_capital_call_data text)
            = some ((extract_percentage text ["call percentage", "contribution percentage"]).map PyValue.num)
        ∧ lookupField "fund_name" (extract_capital_call_data text)
            = some ((extract_fund_name text).map PyValue.str)
        ∧ lookupField "fund_size" (extract_capital_call_data text)
            = some ((extract_amount text ["fund size", "total commitments"]).map PyValue.num)
        ∧ lookupField "lp_name" (extract_capital_call_data text)
            = some ((extract_lp_name text).map PyValue.str)
        ∧ lookupField "payment_instructions" (extract_capital_call_data text)
            = some ((extract_payment_instructions text).map PyValue.str)
        ∧ lookupField "wire_transfer_info" (extract_capital_call_data text)
            = some ((extract_wire_transfer_info text).map PyValue.table)
        ∧ lookupField "distribution_date" (extract_distribution_data text)
            = some ((extract_date text ["distribution date", "payment date"]).map PyValue.date)
        ∧ lookupField "record_date" (extract_distribution_data text)
            = some ((extract_date text ["record date", "ex-date"]).map PyValue.date)
        ∧ lookupField "distribution_amount" (extract_distribution_data text)
            = some ((extract_amount text ["distribution amount", "distribution"]).map PyValue.num)
        ∧ lookupField "lp_distribution_amount" (extract_distribution_data text)
            = some ((extract_amount text ["your distribution", "distribution to"]).map PyValue.num)
        ∧ lookupField "distribution_per_unit" (extract_distribution_data text)
            = some ((extract_amount text ["per unit", "per share"]).map PyValue.num)
        ∧ lookupField "fund_name" (extract_distribution_data text)
            = some ((extract_fund_name text).map PyValue.str)
        ∧ lookupField "fund_nav" (extract_distribution_data text)
            = some ((extract_amount text ["nav", "net asset value"]).map PyValue.num)
        ∧ lookupField "total_distributions" (extract_distribution_data text)
            = some ((extract_amount text ["total distributions"]).map PyValue.num)
        ∧ lookupField "lp_name" (extract_distribution_data text)
            = some ((extract_lp_name text).map PyValue.str)
        ∧ lookupField "lp_units" (extract_distribution_data text)
            = some ((extract_amount text ["units", "shares", "partnership units"]).map PyValue.num)
        ∧ lookupField "irr" (extract_distribution_data text)
            = some ((extract_percentage text ["irr", "internal rate of return"]).map PyValue.num)
        ∧ lookupField "multiple" (extract_distribution_data text)
            = some ((extract_amount text ["multiple", "total return multiple"]).map PyValue.num)
        ∧ lookupField "payment_method" (extract_distribution_data text)
            = some ((extract_payment_method text).map PyValue.str)
        ∧ lookupField "payment_instructions" (extract_distribution_data text)
            = some ((extract_payment_instructions text).map PyValue.str)) := by
  refine ⟨fun p tl lines kws => dateKeywordLoop_no_valueError p tl lines kws,
    fun f tl lines kws => amountKeywordLoop_no_valueError f tl lines kws,
    fun f tl lines kws => pctKeywordLoop_no_valueError f tl lines kws,
    fun text => ?_⟩
  exact ⟨rfl, rfl, rfl, rfl, rfl, rfl, rfl, rfl, rfl, rfl, rfl, rfl, rfl, rfl, rfl, rfl, rfl, rfl, rfl, rfl, rfl, rfl, rfl, rfl, rfl⟩

/-- Claim C8 witness: the no-propagation statements applied at the concrete
primitives of the source and empty scans, and the factorization of the
`due_date` field on the scenario A text. -/
theorem claim_C8_extractor_isolation_witness :
    dateKeywordLoop strptimeExc [] [] [] ≠ Except.error PyExc.valueError
    ∧ amountKeywordLoop pyFloatExc [] [] [] ≠ Except.error PyExc.valueError
    ∧ pctKeywordLoop pyFloatExc [] [] [] ≠ Except.error PyExc.valueError
    ∧ lookupField "due_date" (extract_capital_call_data scenarioA)
        = some ((extract_date scenarioA ["due date", "payment due", "deadline"]).map
            PyValue.date) :=
  ⟨claim_C8_extractor_isolation.1 strptimeExc [] [] [],
   claim_C8_extractor_isolation.2.1 pyFloatExc [] [] [],
   claim_C8_extractor_isolation.2.2.1 pyFloatExc [] [] [],
   (claim_C8_extractor_isolation.2.2.2 scenarioA).2.1⟩
